import Mathlib

set_option maxRecDepth 4000

/-!
Verification development for the Steam-to-Apollo game scanner
(`src/steam_sunshine_scanner.py`).

The file shallowly embeds the pure computational core of the script:

* `parse_vdf`       — `SteamScanner.parse_vdf` (lines 35–86): the line-based
  VDF parser with an explicit section stack;
* `get_library_folders` — `SteamScanner.get_library_folders` (lines 88–115);
* `parse_manifest`  — `SteamScanner.parse_manifest` (lines 161–193);
* `load_apps`       — `ApolloIntegration.load_apps` (lines 220–235);
* `add_games`       — `ApolloIntegration.add_games` (lines 254–305).

File-system and registry access are abstracted as explicit parameters
(file contents as strings, existence flags as booleans); Python code that
would raise an exception is modelled with `Except Unit` results.

Modelling note for `parse_vdf`: Python keeps a stack of aliased mutable
dicts and inserts each freshly created child dict into its parent at the
moment the opening brace is processed.  While a child is on the stack its
parent is never written to (writes only touch the top of the stack), and a
popped dict is never mutated again, so inserting the finished child into
the parent at pop time — the zipper representation used below — produces
exactly the same final root mapping, including key insertion order
(Python dict assignment keeps the original position of an overwritten
key, which is what `upsert` below does).
-/

/-- Values of the parsed VDF structure: Python produces nested `dict`s whose
terminal values are strings.  Mappings are insertion-ordered association
lists, mirroring Python 3 `dict` iteration order. -/
inductive VDF where
  | str (s : String)
  | obj (entries : List (String × VDF))

/-- Python `str.strip()` whitespace test, restricted to the ASCII whitespace
characters (the inputs at issue contain no exotic Unicode whitespace). -/
def isPySpace (c : Char) : Bool :=
  c = ' ' || c = '\t' || c = '\n' || c = '\r' || c = '\x0b' || c = '\x0c'

/-- Python `line.strip()` on a list of characters. -/
def trimChars (cs : List Char) : List Char :=
  ((cs.dropWhile isPySpace).reverse.dropWhile isPySpace).reverse

/-- Python `content.split(chr(10))`: splitting on newline, keeping empty
pieces; the empty string yields one empty piece. -/
def splitLines : List Char → List (List Char)
  | [] => [[]]
  | c :: rest =>
    if c = '\n' then [] :: splitLines rest
    else
      match splitLines rest with
      | [] => [[c]]
      | l :: ls => (c :: l) :: ls

/-- Python `line.startswith(chr(47) ++ chr(47))` (a `//` comment line). -/
def isCommentLine : List Char → Bool
  | c1 :: c2 :: _ => c1 = '/' && c2 = '/'
  | _ => false

/-- Helper for the quoted-substring scan: consume characters up to the next
double quote; returns the consumed body and, when a closing quote was
found, the remainder after it. -/
def takeUntilQuote : List Char → List Char × Option (List Char)
  | [] => ([], none)
  | c :: rest =>
    if c = '\x22' then ([], some rest)
    else
      match takeUntilQuote rest with
      | (body, r) => (c :: body, r)

/-- Fueled scanner mirroring `re.findall` with the pattern
`"([^"]*)"`: non-overlapping double-quoted substrings, left to right; an
unmatched trailing quote yields no further match.  The fuel is structural
bookkeeping only; `cs.length` fuel always suffices since every step
consumes at least one character. -/
def extractQuotedAux : Nat → List Char → List String
  | 0, _ => []
  | _ + 1, [] => []
  | n + 1, c :: rest =>
    if c = '\x22' then
      match takeUntilQuote rest with
      | (body, some rest2) => List.asString body :: extractQuotedAux n rest2
      | (_, none) => []
    else extractQuotedAux n rest

/-- All double-quoted substrings of a line, in order (the `matches` list of
the Python code). -/
def extractQuoted (cs : List Char) : List String :=
  extractQuotedAux cs.length cs

/-- Python `d[k] = v` on an insertion-ordered dict: overwriting keeps the
original position of the key, a fresh key is appended at the end. -/
def upsert (l : List (String × VDF)) (k : String) (v : VDF) : List (String × VDF) :=
  match l with
  | [] => [(k, v)]
  | (k1, v1) :: rest => if k1 = k then (k, v) :: rest else (k1, v1) :: upsert rest k v

/-- Python `d.get(k)` / `k in d` on the association list. -/
def lookupEntries : List (String × VDF) → String → Option VDF
  | [], _ => none
  | (k1, v1) :: rest, key => if k1 = key then some v1 else lookupEntries rest key

/-- Parser state: `top` is the section currently being written (the top of
the Python stack), `ctx` the enclosing open sections, innermost first, each
paired with the key under which the inner section will sit in it, and
`currentKey` is the Python `current_key` register (`none` models `None`). -/
structure PState where
  top : List (String × VDF)
  ctx : List (String × List (String × VDF))
  currentKey : Option String

/-- One iteration of the Python line loop, after `line.strip()` has been
applied.  Branch order and conditions mirror lines 48–81 of the source;
note that Python `if current_key` is falsy both for `None` and for the
empty string, and that the key/value and no-match branches leave
`current_key` untouched. -/
def processTrimmed (st : PState) (line : List Char) : PState :=
  if line = [] then st
  else if isCommentLine line then st
  else if line = ['\x7b'] then
    match st.currentKey with
    | some k => if k = "" then st else ⟨[], (k, st.top) :: st.ctx, none⟩
    | none => st
  else if line = ['\x7d'] then
    match st.ctx with
    | [] => st
    | (k, parent) :: rest => ⟨upsert parent k (VDF.obj st.top), rest, st.currentKey⟩
  else
    match extractQuoted line with
    | [k, v] => ⟨upsert st.top k (VDF.str v), st.ctx, st.currentKey⟩
    | [k] => ⟨st.top, st.ctx, some k⟩
    | _ => st

/-- One iteration of the Python line loop on a raw line. -/
def processLine (st : PState) (raw : List Char) : PState :=
  processTrimmed st (trimChars raw)

/-- Fold the still-open sections back into their parents at end of input
(in Python the children were already physically inside their parents, so
the root dict returned at line 86 contains them; the zipper realizes the
same containment here). -/
def closeAll : List (String × VDF) → List (String × List (String × VDF)) → List (String × VDF)
  | top, [] => top
  | top, (k, parent) :: rest => closeAll (upsert parent k (VDF.obj top)) rest

/-- `SteamScanner.parse_vdf` (lines 35–86), with the file contents passed
directly as a string (the permissive-decoding file read is outside the
model).  Returns the root mapping; the function is total, matching the
catch-all exception handler around the Python loop, which in the pure
line-processing core can never fire. -/
def parse_vdf (content : String) : List (String × VDF) :=
  match (splitLines content.toList).foldl processLine ⟨[], [], none⟩ with
  | ⟨top, ctx, _⟩ => closeAll top ctx

example : parse_vdf "\x22a\x22 \x221\x22" = [("a", VDF.str "1")] := rfl

example : parse_vdf "\x22a\x22\n\x7b\n\x22b\x22\t\x222\x22\n\x7d" =
    [("a", VDF.obj [("b", VDF.str "2")])] := rfl

/-- Python `value.replace(chr(92) ++ chr(92), chr(92))` on the character
list: left-to-right non-overlapping replacement of a doubled backslash by
a single one. -/
def collapseBackslashes : List Char → List Char
  | '\\' :: '\\' :: rest => '\\' :: collapseBackslashes rest
  | c :: rest => c :: collapseBackslashes rest
  | [] => []

/-- The path normalization applied at line 112 of the source. -/
def collapse (s : String) : String :=
  List.asString (collapseBackslashes s.toList)

/-- The loop of lines 110–112: iterate over the entries of the
`libraryfolders` section, appending the (normalized) `path` field of every
child that is a section containing one.  A `path` field that is itself a
section would make Python call `.replace` on a dict and raise
(`AttributeError`), modelled by `Except.error`. -/
def appendLibraryPaths : List (String × VDF) → Except Unit (List String)
  | [] => Except.ok []
  | (_, VDF.str _) :: rest => appendLibraryPaths rest
  | (_, VDF.obj sub) :: rest =>
    match lookupEntries sub "path" with
    | none => appendLibraryPaths rest
    | some (VDF.str p) =>
      match appendLibraryPaths rest with
      | Except.ok ps => Except.ok (collapse p :: ps)
      | Except.error e => Except.error e
    | some (VDF.obj _) => Except.error ()

/-- `SteamScanner.get_library_folders` (lines 88–115).  Filesystem inputs
are passed explicitly: `pathExists` models `os.path.exists` for the custom
paths, `steamPath` the registry lookup result (`none` = not found),
`libraryVdf` the contents of `steamapps/libraryfolders.vdf` (`none` = the
file does not exist).  `Except.error` models an uncaught Python exception
(`.items()` on a string value, or `.replace` on a dict path). -/
def get_library_folders (customPaths : List String) (pathExists : String → Bool)
    (steamPath : Option String) (libraryVdf : Option String) : Except Unit (List String) :=
  let folders := customPaths.filter pathExists
  if customPaths.isEmpty then
    match steamPath with
    | none => Except.ok folders
    | some sp =>
      let folders2 := folders ++ [sp]
      match libraryVdf with
      | none => Except.ok folders2
      | some content =>
        match lookupEntries (parse_vdf content) "libraryfolders" with
        | none => Except.ok folders2
        | some (VDF.str _) => Except.error ()
        | some (VDF.obj entries) =>
          match appendLibraryPaths entries with
          | Except.ok ps => Except.ok (folders2 ++ ps)
          | Except.error e => Except.error e
  else Except.ok folders

/-- The library paths the specification promises for a `libraryfolders`
section (used to state claim C8): for each child section containing a
`path` field, that path with doubled backslashes normalized, in iteration
order.  Stated separately from `appendLibraryPaths` so the theorem relates
the code path to this description. -/
def specLibraryPaths : List (String × VDF) → List String
  | [] => []
  | (_, VDF.str _) :: rest => specLibraryPaths rest
  | (_, VDF.obj sub) :: rest =>
    match lookupEntries sub "path" with
    | some (VDF.str p) => collapse p :: specLibraryPaths rest
    | _ => specLibraryPaths rest

/-- Python truthiness of a parsed VDF value (`if not app_id` etc.): a
string is falsy iff empty, a dict is falsy iff empty. -/
def pyTruthy : VDF → Bool
  | VDF.str s => s != ""
  | VDF.obj es => !es.isEmpty

/-- Python `d.get(k, dflt)`. -/
def pyGet (es : List (String × VDF)) (k : String) (dflt : VDF) : VDF :=
  (lookupEntries es k).getD dflt

/-- Fueled rendering of Python `repr` for a parsed value, used only when a
manifest field is itself a nested section and Python would interpolate the
dict into the f-string at line 192.  Faithful for strings containing no
characters that `repr` escapes (no claim exercises the escaping).  The
fuel is structural bookkeeping; the nesting depth of any `parse_vdf`
output is below the length of its input. -/
def pyReprAux : Nat → VDF → String
  | 0, _ => ""
  | _ + 1, VDF.str s => "\x27" ++ s ++ "\x27"
  | n + 1, VDF.obj es =>
    "\x7b" ++ String.intercalate ", "
      (es.map (fun kv => "\x27" ++ kv.1 ++ "\x27: " ++ pyReprAux n kv.2)) ++ "\x7d"

/-- Python `str()` of a parsed value (f-string interpolation): a string is
itself, a dict renders as its `repr`. -/
def pyStr (fuel : Nat) : VDF → String
  | VDF.str s => s
  | VDF.obj es => pyReprAux fuel (VDF.obj es)

/-- The dict returned by `SteamScanner.parse_manifest` on success
(lines 188–193). -/
structure Game where
  name : String
  app_id : String
  install_dir : String
  exe_path : String
deriving DecidableEq

/-- `SteamScanner.parse_manifest` (lines 161–193), with the manifest file
contents passed as a string.  `Except.error` models an uncaught Python
exception: when the `AppState` key maps to a plain string, line 174 calls
`.get` on a `str` and raises `AttributeError`.  `Except.ok none` is the
Python `return None` (the file is skipped).  Note the display-name default
is the non-empty string `Unknown` (line 175), and the truthiness test of
line 183 uses Python falsiness of the raw values. -/
def parse_manifest (content : String) : Except Unit (Option Game) :=
  let fuel := content.toList.length + 1
  match lookupEntries (parse_vdf content) "AppState" with
  | none => Except.ok none
  | some (VDF.str _) => Except.error ()
  | some (VDF.obj app_state) =>
    let app_id := pyGet app_state "appid" (VDF.str "")
    let name := pyGet app_state "name" (VDF.str "Unknown")
    let install_dir := pyGet app_state "installdir" (VDF.str "")
    if !pyTruthy app_id || !pyTruthy name then Except.ok none
    else Except.ok (some
      { name := pyStr fuel name
        app_id := pyStr fuel app_id
        install_dir := pyStr fuel install_dir
        exe_path := "steam://rungameid/" ++ pyStr fuel app_id })

/-- One entry of the Apollo `apps.json` configuration, with the fields that
`add_games` reads or writes.  `virtualDisplay = none` models the
`virtual-display` key being absent from the JSON object; `some b` models it
present with value `b`. -/
structure ApolloApp where
  name : String
  output : String
  cmd : String
  detached : List String
  imagePath : String
  virtualDisplay : Option Bool
deriving DecidableEq

/-- The Apollo configuration: the ordered `apps` list under the single
top-level key. -/
structure Config where
  apps : List ApolloApp
deriving DecidableEq

/-- `ApolloIntegration.load_apps` (lines 220–235): `fileExists` models
`os.path.exists(self.config_path)`, `loadResult` the outcome of
`json.load` when the file exists (`Except.error` = any exception while
opening or decoding, caught at line 229).  Every failure path falls
through to `return (apps = [])` at line 235. -/
def load_apps (fileExists : Bool) (loadResult : Except String Config) : Config :=
  if fileExists then
    match loadResult with
    | Except.ok c => c
    | Except.error _ => { apps := [] }
  else { apps := [] }

/-- The entry built for a new game at lines 277–288. -/
def mkApolloApp (vd : Bool) (g : Game) : ApolloApp :=
  { name := g.name
    output := ""
    cmd := ""
    detached := [g.exe_path]
    imagePath := ""
    virtualDisplay := if vd then some true else none }

/-- The names present in a list of entries, as collected by the set
comprehension at line 267 (membership is all that is ever used of it). -/
def namesOf (apps : List ApolloApp) : List String :=
  apps.map (fun a => a.name)

/-- The loop of lines 275–296: `en` is the (never-updated) set
`existing_names`, the accumulator pair carries `config[apps]` and `added`.
Note the source never adds a newly appended name to `existing_names`. -/
def add_games_loop (en : List String) (vd : Bool) :
    List Game → List ApolloApp → Nat → List ApolloApp × Nat
  | [], apps, added => (apps, added)
  | g :: rest, apps, added =>
    if g.name ∈ en then add_games_loop en vd rest apps added
    else add_games_loop en vd rest (apps ++ [mkApolloApp vd g]) (added + 1)

/-- `ApolloIntegration.add_games` (lines 254–305) restricted to its pure
merge core: the configuration is taken as an argument (instead of via
`load_apps`) and the updated configuration and `added` count are returned
(instead of being conditionally written by `save_apps`).  The `apps`-key
presence check of lines 264–265 is built into the `Config` type. -/
def add_games (config : Config) (games : List Game) (vd : Bool) : Config × Nat :=
  let en := namesOf config.apps
  match add_games_loop en vd games config.apps 0 with
  | (apps, added) => ({ apps := apps }, added)

/-- The entries appended by one run of the merge loop: games whose name is
not among `en`, in order, each built by `mkApolloApp` — used to state the
claims about `add_games`. -/
def new_entries (en : List String) (vd : Bool) : List Game → List ApolloApp
  | [] => []
  | g :: rest =>
    if g.name ∈ en then new_entries en vd rest
    else mkApolloApp vd g :: new_entries en vd rest


/-! Characterization of the merge loop. -/

theorem add_games_loop_spec (en : List String) (vd : Bool) :
    ∀ (games : List Game) (apps : List ApolloApp) (added : Nat),
      add_games_loop en vd games apps added =
        (apps ++ new_entries en vd games, added + (new_entries en vd games).length) := by
  intro games
  induction games with
  | nil => intro apps added; simp [add_games_loop, new_entries]
  | cons g rest ih =>
    intro apps added
    by_cases h : g.name ∈ en
    · simp [add_games_loop, new_entries, h, ih]
    · simp [add_games_loop, new_entries, h, ih]
      omega

theorem add_games_spec (config : Config) (games : List Game) (vd : Bool) :
    add_games config games vd =
      ({ apps := config.apps ++ new_entries (namesOf config.apps) vd games },
        (new_entries (namesOf config.apps) vd games).length) := by
  simp [add_games, add_games_loop_spec]

theorem new_entries_eq_nil (en : List String) (vd : Bool) (games : List Game)
    (h : ∀ g ∈ games, g.name ∈ en) : new_entries en vd games = [] := by
  induction games with
  | nil => rfl
  | cons g rest ih =>
    have hg : g.name ∈ en := h g (List.mem_cons_self g rest)
    simp [new_entries, hg]
    exact ih (fun x hx => h x (List.mem_cons_of_mem g hx))

theorem name_mem_new_entries (en : List String) (vd : Bool) (games : List Game)
    (g : Game) (hg : g ∈ games) (hn : g.name ∉ en) :
    g.name ∈ namesOf (new_entries en vd games) := by
  induction games with
  | nil => cases hg
  | cons h0 rest ih =>
    rcases List.mem_cons.mp hg with rfl | hmem
    · simp [new_entries, hn, namesOf, mkApolloApp]
    · by_cases hh : h0.name ∈ en
      · simpa [new_entries, hh] using ih hmem
      · simp only [new_entries, if_neg hh, namesOf, List.map_cons]
        exact List.mem_cons_of_mem _ (ih hmem)

theorem namesOf_append (a b : List ApolloApp) :
    namesOf (a ++ b) = namesOf a ++ namesOf b := by
  simp [namesOf]

theorem mem_new_entries (en : List String) (vd : Bool) (games : List Game)
    (a : ApolloApp) (ha : a ∈ new_entries en vd games) :
    ∃ g, g ∈ games ∧ a = mkApolloApp vd g := by
  induction games with
  | nil => cases ha
  | cons g rest ih =>
    by_cases h : g.name ∈ en
    · simp only [new_entries, if_pos h] at ha
      obtain ⟨g2, hg2, rfl⟩ := ih ha
      exact ⟨g2, List.mem_cons_of_mem g hg2, rfl⟩
    · simp only [new_entries, if_neg h, List.mem_cons] at ha
      rcases ha with rfl | ha
      · exact ⟨g, List.mem_cons_self g rest, rfl⟩
      · obtain ⟨g2, hg2, rfl⟩ := ih ha
        exact ⟨g2, List.mem_cons_of_mem g hg2, rfl⟩

/-- Sample discovered records sharing a display-name but with different
identifiers, used for the concrete merge scenarios. -/
def gameA1 : Game :=
  { name := "A", app_id := "1", install_dir := "", exe_path := "steam://rungameid/1" }

/-- Second sample record with the same display-name as `gameA1`. -/
def gameA2 : Game :=
  { name := "A", app_id := "2", install_dir := "", exe_path := "steam://rungameid/2" }

/-- Claim C1, counterexample: merging two records with the same
display-name `A` but different identifiers into the empty configuration
appends BOTH of them — the loop at lines 275–296 never adds a newly
appended name to `existing_names`, so the claimed in-batch deduplication
(only one entry for the name, first record wins) does not happen. -/
theorem C1_counterexample :
    (add_games ⟨[]⟩ [gameA1, gameA2] true).1.apps.length = 2 ∧
      namesOf (add_games ⟨[]⟩ [gameA1, gameA2] true).1.apps = ["A", "A"] ∧
      (add_games ⟨[]⟩ [gameA1, gameA2] true).2 = 2 := by
  refine ⟨rfl, rfl, rfl⟩

/-- Claim C1 (amended): a discovered record is appended exactly when its
display-name is absent from the EXISTING configuration entry names; the
seen-set is never extended during the batch, so two records of the same
batch sharing a fresh display-name are both appended (each with its own
identifier-derived launch reference). -/
theorem C1_amended_in_batch_duplicates (config : Config) (g g2 : Game) (vd : Bool)
    (hname : g2.name = g.name) (hnew : g.name ∉ namesOf config.apps) :
    (add_games config [g, g2] vd).1.apps
        = config.apps ++ [mkApolloApp vd g, mkApolloApp vd g2] ∧
      (add_games config [g, g2] vd).2 = 2 := by
  have h2 : g2.name ∉ namesOf config.apps := by rw [hname]; exact hnew
  rw [add_games_spec]
  simp [new_entries, hnew, h2]

/-- Concrete instance of the amended claim C1. -/
theorem C1_amended_witness :
    gameA2.name = gameA1.name ∧ gameA1.name ∉ namesOf (Config.mk []).apps ∧
      (add_games ⟨[]⟩ [gameA1, gameA2] false).1.apps
          = [] ++ [mkApolloApp false gameA1, mkApolloApp false gameA2] ∧
      (add_games ⟨[]⟩ [gameA1, gameA2] false).2 = 2 := by
  have h1 : gameA2.name = gameA1.name := rfl
  have h2 : gameA1.name ∉ namesOf (Config.mk []).apps := by simp [namesOf]
  have h := C1_amended_in_batch_duplicates ⟨[]⟩ gameA1 gameA2 false h1 h2
  exact ⟨h1, h2, h.1, h.2⟩

/-- Claim C2: the merge is idempotent — merging the same discovered
records a second time into the already merged configuration changes
nothing and appends zero entries, for either value of the virtual-display
flag. -/
theorem C2_merge_idempotent (config : Config) (games : List Game) (vd : Bool) :
    add_games (add_games config games vd).1 games vd = ((add_games config games vd).1, 0) := by
  have h : new_entries
      (namesOf (config.apps ++ new_entries (namesOf config.apps) vd games)) vd games = [] := by
    apply new_entries_eq_nil
    intro g hg
    rw [namesOf_append]
    by_cases hm : g.name ∈ namesOf config.apps
    · exact List.mem_append_left _ hm
    · exact List.mem_append_right _ (name_mem_new_entries _ vd games g hg hm)
  simp [add_games_spec, h]

/-- Claim C3: the merge only appends — the updated entry list is exactly
the existing list followed by the new entries, so every existing entry
(with its `output`, `cmd` and `image-path` fields) is unchanged and at its
original position, whatever the discovered records are. -/
theorem C3_merge_preserves_existing (config : Config) (games : List Game) (vd : Bool) :
    (add_games config games vd).1.apps
        = config.apps ++ new_entries (namesOf config.apps) vd games ∧
      ((add_games config games vd).1.apps).take config.apps.length = config.apps := by
  rw [add_games_spec]
  exact ⟨rfl, List.take_left _ _⟩

/-- Claim C7: when the configuration file exists but its contents fail to
load as JSON, `load_apps` returns the empty configuration, and merging
proceeds exactly as if no configuration had existed. -/
theorem C7_corrupt_config_load (msg : String) :
    load_apps true (Except.error msg) = { apps := [] } ∧
      ∀ (games : List Game) (vd : Bool),
        add_games (load_apps true (Except.error msg)) games vd = add_games ⟨[]⟩ games vd :=
  ⟨rfl, fun _ _ => rfl⟩

/-- Claim C10: every entry appended by the merge has empty `output`, `cmd`
and `image-path` fields, a single-element `detached` list, and carries the
`virtual-display` key (set to `true`) exactly when the flag is on — when
the flag is off the key is absent, not present with value `false`. -/
theorem C10_appended_entry_shape (config : Config) (games : List Game) (vd : Bool)
    (a : ApolloApp)
    (ha : a ∈ ((add_games config games vd).1.apps).drop config.apps.length) :
    a.output = "" ∧ a.cmd = "" ∧ a.imagePath = "" ∧ (∃ x, a.detached = [x]) ∧
      a.virtualDisplay = (if vd then some true else none) := by
  rw [add_games_spec] at ha
  simp only [List.drop_left] at ha
  obtain ⟨g, _, rfl⟩ := mem_new_entries _ vd games a ha
  exact ⟨rfl, rfl, rfl, ⟨g.exe_path, rfl⟩, rfl⟩

/-- Concrete instance of claim C10. -/
theorem C10_witness :
    mkApolloApp true gameA1
        ∈ ((add_games ⟨[]⟩ [gameA1] true).1.apps).drop (Config.mk []).apps.length ∧
      (mkApolloApp true gameA1).virtualDisplay = some true ∧
      (mkApolloApp true gameA1).output = "" ∧
      (mkApolloApp true gameA1).detached = ["steam://rungameid/1"] := by
  have hm : mkApolloApp true gameA1
      ∈ ((add_games ⟨[]⟩ [gameA1] true).1.apps).drop (Config.mk []).apps.length := by
    decide
  have h := C10_appended_entry_shape ⟨[]⟩ [gameA1] true (mkApolloApp true gameA1) hm
  exact ⟨hm, by simpa using h.2.2.2.2, h.1, rfl⟩

/-- Claim C5, counterexample: a line whose single quoted substring is the
EMPTY string does register it as the pending key, but the following
opening-brace line does NOT create, insert and push a new section —
Python `if current_key` is falsy for the empty string, so the brace is
ignored and the pending key is not cleared.  Concretely, for the input
consisting of the lines `""`, `{`, `"k" "v"` the root ends up holding the
plain pair `k = v` and no section under the empty key exists, where the
claim predicts a section under the empty key containing that pair. -/
theorem C5_counterexample :
    parse_vdf "\x22\x22\n\x7b\n\x22k\x22 \x22v\x22" = [("k", VDF.str "v")] ∧
      lookupEntries (parse_vdf "\x22\x22\n\x7b\n\x22k\x22 \x22v\x22") "" = none ∧
      processTrimmed ⟨[], [], some ""⟩ ['\x7b'] = ⟨[], [], some ""⟩ :=
  ⟨rfl, rfl, rfl⟩

/-- Claim C5 (amended): a non-empty, non-comment, non-brace line with
exactly one quoted substring registers it as the pending key; a following
opening-brace line creates, inserts and pushes a new empty section and
clears the pending key ONLY when the registered key is non-empty — with
an empty-string pending key, or with no pending key, the brace line is
ignored (and an empty pending key is not cleared). -/
theorem C5_amended_pending_key (st : PState) (raw : List Char) (k : String) :
    (trimChars raw ≠ [] → isCommentLine (trimChars raw) = false →
      trimChars raw ≠ ['\x7b'] → trimChars raw ≠ ['\x7d'] →
      extractQuoted (trimChars raw) = [k] →
      processLine st raw = ⟨st.top, st.ctx, some k⟩) ∧
    (st.currentKey = some k → k ≠ "" →
      processTrimmed st ['\x7b'] = ⟨[], (k, st.top) :: st.ctx, none⟩) ∧
    (st.currentKey = some "" → processTrimmed st ['\x7b'] = st) ∧
    (st.currentKey = none → processTrimmed st ['\x7b'] = st) := by
  refine ⟨?_, ?_, ?_, ?_⟩
  · intro h1 h2 h3 h4 h5
    simp [processLine, processTrimmed, h1, h2, h3, h4, h5]
  · intro hk hne
    simp [processTrimmed, hk, hne, show isCommentLine ['\x7b'] = false from rfl]
  · intro hk
    simp [processTrimmed, hk, show isCommentLine ['\x7b'] = false from rfl]
  · intro hk
    simp [processTrimmed, hk, show isCommentLine ['\x7b'] = false from rfl]

/-- Concrete instance of the amended claim C5: the line `"key"` registers
the pending key `key`, and a following `{` line opens the section. -/
theorem C5_amended_witness :
    processLine ⟨[], [], none⟩ ("\x22key\x22".toList) = ⟨[], [], some "key"⟩ ∧
      processTrimmed ⟨[], [], some "key"⟩ ['\x7b'] = ⟨[], [("key", [])], none⟩ := by
  have h1 := C5_amended_pending_key ⟨[], [], none⟩ ("\x22key\x22".toList) "key"
  have h2 := C5_amended_pending_key ⟨[], [], some "key"⟩ [] "key"
  exact ⟨h1.1 (by decide) (by decide) (by decide) (by decide) (by decide),
    h2.2.1 rfl (by decide)⟩

/-- Claim C6: the parser is total by construction (`parse_vdf` is a Lean
function returning the root mapping for every input, mirroring the
exception-tolerant Python loop); a closing-brace line pops the stack
exactly when the stack holds more than the root and is a no-op at the
root, and malformed inputs — an unmatched closing brace, an unclosed
section, a trailing key without a value — still yield the root with every
successfully parsed pair. -/
theorem C6_parser_total_root_never_popped :
    (∀ (st : PState) (raw : List Char), processLine st raw = processTrimmed st (trimChars raw)) ∧
    (∀ st : PState, processTrimmed st ['\x7d'] =
      match st.ctx with
      | [] => st
      | (k, parent) :: rest => ⟨upsert parent k (VDF.obj st.top), rest, st.currentKey⟩) ∧
    parse_vdf "\x22a\x22 \x221\x22\n\x7d\n\x22b\x22 \x222\x22"
        = [("a", VDF.str "1"), ("b", VDF.str "2")] ∧
    parse_vdf "\x22a\x22 \x221\x22\n\x22sec\x22\n\x7b\n\x22b\x22 \x222\x22"
        = [("a", VDF.str "1"), ("sec", VDF.obj [("b", VDF.str "2")])] ∧
    parse_vdf "\x22k\x22" = [] := by
  refine ⟨fun _ _ => rfl, ?_, rfl, rfl, rfl⟩
  intro st
  obtain ⟨top, ctx, ck⟩ := st
  cases ctx with
  | nil => rfl
  | cons f rest =>
    obtain ⟨k, parent⟩ := f
    rfl

/-- Claim C4, counterexample: a manifest whose `AppState` section has a
non-empty `appid` but NO `name` field is not skipped — line 175 defaults
the missing display-name to the non-empty string `Unknown`, so the
truthiness test at line 183 passes and a record is produced. -/
theorem C4_counterexample :
    parse_manifest "\x22AppState\x22\n\x7b\n\x22appid\x22 \x22440\x22\n\x7d"
        = Except.ok (some
          { name := "Unknown", app_id := "440", install_dir := "",
            exe_path := "steam://rungameid/440" }) ∧
      parse_manifest "\x22AppState\x22\n\x7b\n\x22appid\x22 \x22440\x22\n\x7d"
        ≠ Except.ok none := by
  have h1 : parse_manifest "\x22AppState\x22\n\x7b\n\x22appid\x22 \x22440\x22\n\x7d"
      = Except.ok (some
        { name := "Unknown", app_id := "440", install_dir := "",
          exe_path := "steam://rungameid/440" }) := rfl
  refine ⟨h1, ?_⟩
  rw [h1]
  simp

/-- Claim C4 (amended): a manifest with no `AppState` section yields no
record, and a manifest whose `AppState` section yields a FALSY identifier
(absent, or empty after extraction) or a FALSY display-name (present but
empty) yields no record — in both cases as an ordinary skip, not an
error.  An entirely absent display-name, however, defaults to `Unknown`
and does not cause a skip. -/
theorem C4_amended_skip (content : String) :
    (lookupEntries (parse_vdf content) "AppState" = none →
      parse_manifest content = Except.ok none) ∧
    ∀ app_state, lookupEntries (parse_vdf content) "AppState" = some (VDF.obj app_state) →
      (pyTruthy (pyGet app_state "appid" (VDF.str "")) = false ∨
        pyTruthy (pyGet app_state "name" (VDF.str "Unknown")) = false) →
      parse_manifest content = Except.ok none := by
  constructor
  · intro h
    simp [parse_manifest, h]
  · intro app_state h hfalsy
    rcases hfalsy with hf | hf <;> simp [parse_manifest, h, hf]

/-- Concrete instance of the amended claim C4: an explicitly empty
`appid` causes the file to be skipped. -/
theorem C4_amended_witness :
    lookupEntries (parse_vdf "\x22AppState\x22\n\x7b\n\x22appid\x22 \x22\x22\n\x22name\x22 \x22X\x22\n\x7d") "AppState"
        = some (VDF.obj [("appid", VDF.str ""), ("name", VDF.str "X")]) ∧
      parse_manifest "\x22AppState\x22\n\x7b\n\x22appid\x22 \x22\x22\n\x22name\x22 \x22X\x22\n\x7d"
        = Except.ok none := by
  have h : lookupEntries
      (parse_vdf "\x22AppState\x22\n\x7b\n\x22appid\x22 \x22\x22\n\x22name\x22 \x22X\x22\n\x7d") "AppState"
      = some (VDF.obj [("appid", VDF.str ""), ("name", VDF.str "X")]) := rfl
  exact ⟨h, (C4_amended_skip _).2 _ h (Or.inl (by decide))⟩

/-- Claim C9: for every manifest whose `AppState` section carries a
non-empty string `appid` and a non-empty string `name`, a record is
produced whose launch-reference is `steam://rungameid/` followed by the
identifier, and whose install-subpath defaults to the empty string when
`installdir` is absent. -/
theorem C9_record_fields (content : String) (app_state : List (String × VDF)) (a n : String)
    (hstate : lookupEntries (parse_vdf content) "AppState" = some (VDF.obj app_state))
    (hid : lookupEntries app_state "appid" = some (VDF.str a)) (ha : a ≠ "")
    (hname : lookupEntries app_state "name" = some (VDF.str n)) (hn : n ≠ "") :
    ∃ g, parse_manifest content = Except.ok (some g) ∧
      g.name = n ∧ g.app_id = a ∧ g.exe_path = "steam://rungameid/" ++ a ∧
      (lookupEntries app_state "installdir" = none → g.install_dir = "") := by
  have hga : pyGet app_state "appid" (VDF.str "") = VDF.str a := by simp [pyGet, hid]
  have hgn : pyGet app_state "name" (VDF.str "Unknown") = VDF.str n := by simp [pyGet, hname]
  have hta : pyTruthy (VDF.str a) = true := by simp [pyTruthy, ha]
  have htn : pyTruthy (VDF.str n) = true := by simp [pyTruthy, hn]
  refine ⟨⟨n, a,
      pyStr (content.toList.length + 1) (pyGet app_state "installdir" (VDF.str "")),
      "steam://rungameid/" ++ a⟩, ?_, rfl, rfl, rfl, ?_⟩
  · simp [parse_manifest, hstate, hga, hgn, hta, htn, pyStr]
  · intro h0
    simp [pyGet, h0, pyStr]

/-- The manifest of the specification scenario for claim C9: appid 440,
name Team Fortress 2, no installdir. -/
def tf2Manifest : String :=
  "\x22AppState\x22\n\x7b\n\x22appid\x22\t\x22440\x22\n\x22name\x22\t\x22Team Fortress 2\x22\n\x7d"

/-- Concrete instance of claim C9: the Team Fortress 2 scenario. -/
theorem C9_witness :
    parse_manifest tf2Manifest = Except.ok (some
      ⟨"Team Fortress 2", "440", "", "steam://rungameid/440"⟩) ∧
      (∃ g, parse_manifest tf2Manifest = Except.ok (some g) ∧
        g.name = "Team Fortress 2" ∧ g.app_id = "440" ∧
        g.exe_path = "steam://rungameid/" ++ "440" ∧
        (lookupEntries [("appid", VDF.str "440"), ("name", VDF.str "Team Fortress 2")]
            "installdir" = none →
          g.install_dir = "")) := by
  refine ⟨rfl, ?_⟩
  exact C9_record_fields tf2Manifest
    [("appid", VDF.str "440"), ("name", VDF.str "Team Fortress 2")]
    "440" "Team Fortress 2" rfl rfl (by decide) rfl (by decide)

theorem appendLibraryPaths_ok (entries : List (String × VDF))
    (h : ∀ k sub, (k, VDF.obj sub) ∈ entries →
      ∀ o, lookupEntries sub "path" ≠ some (VDF.obj o)) :
    appendLibraryPaths entries = Except.ok (specLibraryPaths entries) := by
  induction entries with
  | nil => rfl
  | cons e rest ih =>
    obtain ⟨k, v⟩ := e
    have hrest := ih (fun k2 sub2 hm o => h k2 sub2 (List.mem_cons_of_mem _ hm) o)
    cases v with
    | str s => simp [appendLibraryPaths, specLibraryPaths, hrest]
    | obj sub =>
      cases hp : lookupEntries sub "path" with
      | none => simp [appendLibraryPaths, specLibraryPaths, hp, hrest]
      | some v2 =>
        cases v2 with
        | str p => simp [appendLibraryPaths, specLibraryPaths, hp, hrest]
        | obj o => exact absurd hp (h k sub (List.mem_cons_self _ _) o)

/-- Claim C8: with no explicit paths and an available root, the resolver
returns the root first, followed by, for each child section of the
manifest's `libraryfolders` section carrying a `path` field, that path
with doubled backslashes collapsed, in the manifest's iteration order.
The side condition rules out the (crashing) case of a `path` field that is
itself a section. -/
theorem C8_library_folders (pe : String → Bool) (root content : String)
    (entries : List (String × VDF))
    (hlf : lookupEntries (parse_vdf content) "libraryfolders" = some (VDF.obj entries))
    (hok : ∀ k sub, (k, VDF.obj sub) ∈ entries →
      ∀ o, lookupEntries sub "path" ≠ some (VDF.obj o)) :
    get_library_folders [] pe (some root) (some content)
      = Except.ok (root :: specLibraryPaths entries) := by
  simp [get_library_folders, hlf, appendLibraryPaths_ok entries hok]

/-- The library manifest of the specification scenario for claim C8: two
child sections with paths `D:\\Games` and `E:\\Library`. -/
def twoFolderManifest : String :=
  "\x22libraryfolders\x22\n\x7b\n\x220\x22\n\x7b\n\x22path\x22\t\x22D:\\\\Games\x22\n\x7d\n\x221\x22\n\x7b\n\x22path\x22\t\x22E:\\\\Library\x22\n\x7d\n\x7d"

/-- Concrete instance of claim C8: the two-library scenario of the
specification, with doubled backslashes normalized to single ones. -/
theorem C8_witness :
    get_library_folders [] (fun _ => true) (some "C:\\Steam") (some twoFolderManifest)
      = Except.ok ["C:\\Steam", "D:\\Games", "E:\\Library"] := by
  have hlf : lookupEntries (parse_vdf twoFolderManifest) "libraryfolders"
      = some (VDF.obj [("0", VDF.obj [("path", VDF.str "D:\\\\Games")]),
          ("1", VDF.obj [("path", VDF.str "E:\\\\Library")])]) := rfl
  have hok : ∀ k sub,
      (k, VDF.obj sub) ∈ [("0", VDF.obj [("path", VDF.str "D:\\\\Games")]),
        ("1", VDF.obj [("path", VDF.str "E:\\\\Library")])] →
      ∀ o, lookupEntries sub "path" ≠ some (VDF.obj o) := by
    intro k sub hmem o
    simp only [List.mem_cons, List.not_mem_nil, or_false, Prod.mk.injEq,
      VDF.obj.injEq] at hmem
    rcases hmem with ⟨_, hs⟩ | ⟨_, hs⟩ <;> subst hs <;> simp [lookupEntries]
  have h := C8_library_folders (fun _ => true) "C:\\Steam" twoFolderManifest _ hlf hok
  rw [h]
  rfl
